import Mathlib

/-!
Verification of the GPU/PCIe audit helpers of tests/test_gpu_pcie.py.

Strings are modeled as `List Char`.  The Python regular expressions the
source uses are all over fixed patterns (addresses, field lines, token
classes); each is modeled by an explicit character-level matcher with the
same anchoring, character classes and greediness, restricted to ASCII text
(the source only ever feeds them ASCII tool output).  Python integer and
float conversions are modeled by `Option`-returning parsers — `none` stands
for the ValueError that the source catches — with decimal float text read
exactly into `ℚ` (the source compares short decimal readings such as 16.0,
where IEEE rounding never changes a strict comparison).
-/

/-- ASCII digit class, the regex class of 0-9. -/
def isDigitCh (c : Char) : Bool := decide (48 ≤ c.toNat ∧ c.toNat ≤ 57)

/-- ASCII hex-digit class, the regex class of 0-9, a-f and A-F. -/
def isHexCh (c : Char) : Bool :=
  decide ((48 ≤ c.toNat ∧ c.toNat ≤ 57) ∨ (97 ≤ c.toNat ∧ c.toNat ≤ 102) ∨
    (65 ≤ c.toNat ∧ c.toNat ≤ 70))

/-- ASCII whitespace, as stripped by Python str.strip and matched by the regex
class for whitespace: space, tab, newline, carriage return, vertical tab and
form feed. -/
def isPySpace (c : Char) : Bool :=
  decide (c.toNat = 32 ∨ c.toNat = 9 ∨ c.toNat = 10 ∨ c.toNat = 13 ∨
    c.toNat = 11 ∨ c.toNat = 12)

/-- Numeric value of one hex digit (0 outside the class). -/
def hexVal (c : Char) : Nat :=
  if 48 ≤ c.toNat ∧ c.toNat ≤ 57 then c.toNat - 48
  else if 97 ≤ c.toNat ∧ c.toNat ≤ 102 then c.toNat - 87
  else if 65 ≤ c.toNat ∧ c.toNat ≤ 70 then c.toNat - 55
  else 0

/-- Value of a hex-digit string: Python int(s, 16) applied to a matched group. -/
def hexStrVal (s : List Char) : Nat := s.foldl (fun a c => a * 16 + hexVal c) 0

/-- Value of a decimal-digit string: Python int(s) applied to a digit run. -/
def digitsVal (s : List Char) : Nat := s.foldl (fun a c => a * 10 + (c.toNat - 48)) 0

/-- Lower-case hex digit character of a value below 16, as printed by %x. -/
def hexChar (n : Nat) : Char := if n < 10 then Char.ofNat (48 + n) else Char.ofNat (87 + n)

/-- Two-digit hex rendering, Python %02x on a value below 256. -/
def toHex2 (n : Nat) : List Char := [hexChar (n / 16 % 16), hexChar (n % 16)]

/-- Four-digit hex rendering, Python %04x on a value below 65536. -/
def toHex4 (n : Nat) : List Char :=
  [hexChar (n / 4096 % 16), hexChar (n / 256 % 16), hexChar (n / 16 % 16), hexChar (n % 16)]

/-- Python str.strip: drop ASCII whitespace from both ends. -/
def pyStrip (s : List Char) : List Char :=
  ((s.dropWhile isPySpace).reverse.dropWhile isPySpace).reverse

/-- Python substring membership, the `in` test on strings. -/
def containsSub (pat : List Char) : List Char → Bool
  | [] => pat.isEmpty
  | c :: cs => pat.isPrefixOf (c :: cs) || containsSub pat cs

/-- ASCII lower-casing, Python str.lower on the tool output lines. -/
def toLowerAscii (c : Char) : Char :=
  if 65 ≤ c.toNat ∧ c.toNat ≤ 90 then Char.ofNat (c.toNat + 32) else c

/-- Split a text at each newline, keeping every piece (the line model used for
the multiline-anchored regex searches). -/
def linesOf : List Char → List (List Char)
  | [] => [[]]
  | c :: cs =>
    if c = '\n' then [] :: linesOf cs
    else
      match linesOf cs with
      | [] => [[c]]
      | l :: ls => (c :: l) :: ls

/-- Python str.splitlines on newline-separated text: like `linesOf` but without
the final empty piece after a trailing newline, and empty for empty text. -/
def pySplitlines (s : List Char) : List (List Char) :=
  match s with
  | [] => []
  | _ =>
    match (linesOf s).reverse with
    | [] :: rest => rest.reverse
    | rest => rest.reverse

/-- Python dict assignment d[k] = v on an association list: replace the value
at an existing key in place, otherwise append the new pair. -/
def dictInsert : List (List Char × List Char) → List Char → List Char →
    List (List Char × List Char)
  | [], k, v => [(k, v)]
  | (k', v') :: t, k, v => if k' = k then (k, v) :: t else (k', v') :: dictInsert t k v

/-!  AddressCodec: the root-port address pattern and the firmware-key
translation dmi_key_from_bdf (tests/test_gpu_pcie.py lines 46-56; the same
anchored pattern is matched again at line 305). -/

/-- Model of re.match on the anchored root-port address pattern: four hex
digits, colon, two hex digits, colon, two hex digits, dot, one function digit
between 0 and 7; returns the four captured groups.  The end anchor of the
host regex engine also matches just before one newline at the very end of
the text, so a text that is the pattern followed by one final newline is
accepted too. -/
def bdfGroups : List Char → Option (List Char × List Char × List Char × List Char)
  | [d1, d2, d3, d4, c1, b1, b2, c2, v1, v2, p, f] =>
    if c1 = ':' ∧ c2 = ':' ∧ p = '.' ∧
        isHexCh d1 ∧ isHexCh d2 ∧ isHexCh d3 ∧ isHexCh d4 ∧
        isHexCh b1 ∧ isHexCh b2 ∧ isHexCh v1 ∧ isHexCh v2 ∧
        48 ≤ f.toNat ∧ f.toNat ≤ 55 then
      some ([d1, d2, d3, d4], [b1, b2], [v1, v2], [f])
    else none
  | [d1, d2, d3, d4, c1, b1, b2, c2, v1, v2, p, f, nl] =>
    if nl = '\n' ∧ c1 = ':' ∧ c2 = ':' ∧ p = '.' ∧
        isHexCh d1 ∧ isHexCh d2 ∧ isHexCh d3 ∧ isHexCh d4 ∧
        isHexCh b1 ∧ isHexCh b2 ∧ isHexCh v1 ∧ isHexCh v2 ∧
        48 ≤ f.toNat ∧ f.toNat ≤ 55 then
      some ([d1, d2, d3, d4], [b1, b2], [v1, v2], [f])
    else none
  | _ => none

/-- Numeric reading of a canonical address text: domain, bus, device, function. -/
def parseBdf (s : List Char) : Option (Nat × Nat × Nat × Nat) :=
  (bdfGroups s).map fun g => (hexStrVal g.1, hexStrVal g.2.1, hexStrVal g.2.2.1, hexStrVal g.2.2.2)

/-- Port of dmi_key_from_bdf: parse the canonical address and print
bus into the four-digit field, device into the two-digit field, a literal 00
into the third field and the function digit last (the bash printf
%04x:%02x:%02x.%x applied to bus, device, 0, function).  A text that does not
match the pattern yields the empty string. -/
def dmi_key_from_bdf (s : List Char) : List Char :=
  match bdfGroups s with
  | none => []
  | some g =>
    toHex4 (hexStrVal g.2.1) ++ ':' :: toHex2 (hexStrVal g.2.2.1) ++ ':' :: toHex2 0 ++
      '.' :: [Char.ofNat (48 + hexStrVal g.2.2.2)]

/-- The canonical address pattern of the specification, as a predicate: exactly
4 hex digits, colon, 2 hex digits, colon, 2 hex digits, dot, one function digit
in the range 0-7. -/
def canonicalBdf (s : List Char) : Prop :=
  ∃ d1 d2 d3 d4 b1 b2 v1 v2 f,
    s = [d1, d2, d3, d4, ':', b1, b2, ':', v1, v2, '.', f] ∧
    isHexCh d1 = true ∧ isHexCh d2 = true ∧ isHexCh d3 = true ∧ isHexCh d4 = true ∧
    isHexCh b1 = true ∧ isHexCh b2 = true ∧ isHexCh v1 = true ∧ isHexCh v2 = true ∧
    48 ≤ f.toNat ∧ f.toNat ≤ 55

lemma hexVal_lt {c : Char} (h : isHexCh c = true) : hexVal c < 16 := by
  simp only [isHexCh, decide_eq_true_eq] at h
  unfold hexVal
  split_ifs <;> omega

lemma hexVal_hexChar {m : Nat} (h : m < 16) : hexVal (hexChar m) = m := by
  interval_cases m <;> decide

lemma isHexCh_hexChar {m : Nat} (h : m < 16) : isHexCh (hexChar m) = true := by
  interval_cases m <;> decide

lemma toNat_fnChar {m : Nat} (h : m < 8) : (Char.ofNat (48 + m)).toNat = 48 + m := by
  interval_cases m <;> decide

lemma hexVal_fnChar {m : Nat} (h : m < 8) : hexVal (Char.ofNat (48 + m)) = m := by
  interval_cases m <;> decide

lemma bdfGroups_eq_some {s : List Char} {gd gb gv gf : List Char}
    (h : bdfGroups s = some (gd, gb, gv, gf)) :
    ∃ d1 d2 d3 d4 b1 b2 v1 v2 f,
      (s = [d1, d2, d3, d4, ':', b1, b2, ':', v1, v2, '.', f] ∨
        s = [d1, d2, d3, d4, ':', b1, b2, ':', v1, v2, '.', f, '\n']) ∧
      gd = [d1, d2, d3, d4] ∧ gb = [b1, b2] ∧ gv = [v1, v2] ∧ gf = [f] ∧
      isHexCh d1 = true ∧ isHexCh d2 = true ∧ isHexCh d3 = true ∧ isHexCh d4 = true ∧
      isHexCh b1 = true ∧ isHexCh b2 = true ∧ isHexCh v1 = true ∧ isHexCh v2 = true ∧
      48 ≤ f.toNat ∧ f.toNat ≤ 55 := by
  unfold bdfGroups at h
  split at h
  · next d1 d2 d3 d4 c1 b1 b2 c2 v1 v2 p f =>
    split at h
    · next hc =>
      obtain ⟨h1, h2, h3, hd1, hd2, hd3, hd4, hb1, hb2, hv1, hv2, hf1, hf2⟩ := hc
      injection h with h'
      subst h1 h2 h3
      simp only [Prod.mk.injEq] at h'
      obtain ⟨e1, e2, e3, e4⟩ := h'
      subst e1 e2 e3 e4
      exact ⟨d1, d2, d3, d4, b1, b2, v1, v2, f, Or.inl rfl, rfl, rfl, rfl, rfl,
        hd1, hd2, hd3, hd4, hb1, hb2, hv1, hv2, hf1, hf2⟩
    · exact absurd h (by simp)
  · next d1 d2 d3 d4 c1 b1 b2 c2 v1 v2 p f nl =>
    split at h
    · next hc =>
      obtain ⟨h0, h1, h2, h3, hd1, hd2, hd3, hd4, hb1, hb2, hv1, hv2, hf1, hf2⟩ := hc
      injection h with h'
      subst h0 h1 h2 h3
      simp only [Prod.mk.injEq] at h'
      obtain ⟨e1, e2, e3, e4⟩ := h'
      subst e1 e2 e3 e4
      exact ⟨d1, d2, d3, d4, b1, b2, v1, v2, f, Or.inr rfl, rfl, rfl, rfl, rfl,
        hd1, hd2, hd3, hd4, hb1, hb2, hv1, hv2, hf1, hf2⟩
    · exact absurd h (by simp)
  · exact absurd h (by simp)

lemma hexStrVal_pair {b1 b2 : Char} : hexStrVal [b1, b2] = hexVal b1 * 16 + hexVal b2 := by
  simp [hexStrVal]

/-- Round trip: parsing the key that dmi_key_from_bdf prints for (bus B,
device D, function F) recovers (B, D, 0, F). -/
lemma parseBdf_key {B D F : Nat} (hB : B < 65536) (hD : D < 256) (hF : F < 8) :
    parseBdf (toHex4 B ++ ':' :: toHex2 D ++ ':' :: toHex2 0 ++ '.' :: [Char.ofNat (48 + F)]) =
      some (B, D, 0, F) := by
  have h16 : ∀ n : Nat, n % 16 < 16 := fun n => Nat.mod_lt _ (by norm_num)
  have hF48 : 48 ≤ (Char.ofNat (48 + F)).toNat ∧ (Char.ofNat (48 + F)).toNat ≤ 55 := by
    rw [toNat_fnChar hF]; omega
  simp only [toHex4, toHex2, parseBdf, List.cons_append, List.nil_append]
  rw [show bdfGroups [hexChar (B / 4096 % 16), hexChar (B / 256 % 16), hexChar (B / 16 % 16),
      hexChar (B % 16), ':', hexChar (D / 16 % 16), hexChar (D % 16), ':', hexChar (0 / 16 % 16),
      hexChar (0 % 16), '.', Char.ofNat (48 + F)] =
      some ([hexChar (B / 4096 % 16), hexChar (B / 256 % 16), hexChar (B / 16 % 16),
        hexChar (B % 16)], [hexChar (D / 16 % 16), hexChar (D % 16)],
        [hexChar (0 / 16 % 16), hexChar (0 % 16)], [Char.ofNat (48 + F)]) from by
    simp only [bdfGroups]
    rw [if_pos]
    exact ⟨trivial, trivial, trivial, isHexCh_hexChar (h16 _), isHexCh_hexChar (h16 _),
      isHexCh_hexChar (h16 _), isHexCh_hexChar (h16 _), isHexCh_hexChar (h16 _),
      isHexCh_hexChar (h16 _), isHexCh_hexChar (h16 _), isHexCh_hexChar (h16 _),
      hF48.1, hF48.2⟩]
  simp only [Option.map_some', hexStrVal, List.foldl, hexVal_hexChar (h16 _), hexVal_fnChar hF]
  have : ((0 * 16 + B / 4096 % 16) * 16 + B / 256 % 16) * 16 * 16 +
      (B / 16 % 16) * 16 + B % 16 = B := by omega
  refine congrArg some ?_
  refine Prod.ext ?_ (Prod.ext ?_ (Prod.ext ?_ ?_)) <;> simp <;> omega

lemma dmi_key_eq {s gd gb gv gf : List Char} (h : bdfGroups s = some (gd, gb, gv, gf)) :
    dmi_key_from_bdf s =
      toHex4 (hexStrVal gb) ++ ':' :: toHex2 (hexStrVal gv) ++ ':' :: toHex2 0 ++
        '.' :: [Char.ofNat (48 + hexStrVal gf)] := by
  unfold dmi_key_from_bdf
  rw [h]

lemma hexVal_fn_digit {f : Char} (h1 : 48 ≤ f.toNat) (h2 : f.toNat ≤ 55) : hexVal f < 8 := by
  unfold hexVal
  split_ifs <;> omega

lemma hexStrVal_single {f : Char} : hexStrVal [f] = hexVal f := by
  simp [hexStrVal]

/-- The group values read back from a successful match are in range: the bus
and device groups are below 256 and the function digit below 8. -/
lemma parseBdf_bounds {s : List Char} {dom bus dev fn : Nat}
    (h : parseBdf s = some (dom, bus, dev, fn)) :
    bus < 256 ∧ dev < 256 ∧ fn < 8 ∧
    ∃ gd gb gv gf, bdfGroups s = some (gd, gb, gv, gf) ∧
      hexStrVal gb = bus ∧ hexStrVal gv = dev ∧ hexStrVal gf = fn := by
  simp only [parseBdf, Option.map_eq_some'] at h
  obtain ⟨⟨gd, gb, gv, gf⟩, hg, heq⟩ := h
  simp only [Prod.mk.injEq] at heq
  obtain ⟨e1, e2, e3, e4⟩ := heq
  obtain ⟨d1, d2, d3, d4, b1, b2, v1, v2, f, _, _, hgb, hgv, hgf, _, _, _, _,
    hb1, hb2, hv1, hv2, hf1, hf2⟩ := bdfGroups_eq_some hg
  subst hgb hgv hgf
  refine ⟨?_, ?_, ?_, gd, [b1, b2], [v1, v2], [f], hg, e2, e3, e4⟩
  · rw [← e2, hexStrVal_pair]
    have := hexVal_lt hb1
    have := hexVal_lt hb2
    omega
  · rw [← e3, hexStrVal_pair]
    have := hexVal_lt hv1
    have := hexVal_lt hv2
    omega
  · rw [← e4, hexStrVal_single]
    exact hexVal_fn_digit hf1 hf2

/-- C1 (amended): on a parsed canonical address, the firmware key produced by
dmi_key_from_bdf re-parses with the address's bus in the domain field, the
address's device in the bus field, zero in the device field and the address's
function in the function field; consequently the key depends only on
(bus, device, function) — two addresses that differ only in their domain map
to the same key — while two addresses on one bus that differ in their device
field map to distinct keys. -/
theorem claim_C1_amended (s : List Char) (dom bus dev fn : Nat)
    (h : parseBdf s = some (dom, bus, dev, fn)) :
    parseBdf (dmi_key_from_bdf s) = some (bus, dev, 0, fn) ∧
    ∀ t dom2, parseBdf t = some (dom2, bus, dev, fn) →
      dmi_key_from_bdf t = dmi_key_from_bdf s := by
  obtain ⟨hbus, hdev, hfn, gd, gb, gv, gf, hg, eb, ev, ef⟩ := parseBdf_bounds h
  have hkey := dmi_key_eq hg
  rw [eb, ev, ef] at hkey
  constructor
  · rw [hkey]
    exact parseBdf_key (by omega) hdev hfn
  · intro t dom2 ht
    obtain ⟨_, _, _, gd', gb', gv', gf', hg', eb', ev', ef'⟩ := parseBdf_bounds ht
    have hkey' := dmi_key_eq hg'
    rw [eb', ev', ef'] at hkey'
    rw [hkey, hkey']

/-- C1 witness: a concrete address run through the amended theorem. -/
theorem claim_C1_witness :
    parseBdf ( "0000:01:02.3".toList) = some (0, 1, 2, 3) ∧
    parseBdf (dmi_key_from_bdf ( "0000:01:02.3".toList)) = some (1, 2, 0, 3) :=
  ⟨by decide, (claim_C1_amended ( "0000:01:02.3".toList) 0 1 2 3 (by decide)).1⟩

/-- C1 counterexample: the claim as stated is false on the code.  The two
addresses 0000:01:00.0 and 0000:01:01.0 share a bus and differ only in their
device field, yet their firmware keys differ; and for 0000:c1:00.0 the key
re-parses with bus field 0 (the address's device), not c1 (the address's bus):
the c1 lands in the leading four-digit field. -/
theorem claim_C1_counterexample :
    dmi_key_from_bdf ( "0000:01:00.0".toList) ≠ dmi_key_from_bdf ( "0000:01:01.0".toList) ∧
    parseBdf (dmi_key_from_bdf ( "0000:c1:00.0".toList)) = some (0xc1, 0, 0, 0) := by
  decide

/-- C9 counterexample: the claim fails on the code for the text that is the
canonical address 0000:01:00.0 followed by one final newline.  That text does
not exactly match the canonical pattern, yet the host regex engine's end
anchor also matches just before a single newline at the end of the text, so
the translation accepts it and produces a non-empty key. -/
theorem claim_C9_counterexample :
    dmi_key_from_bdf ( "0000:01:00.0\n".toList) ≠ [] ∧
    ¬ canonicalBdf ( "0000:01:00.0\n".toList) := by
  constructor
  · decide
  · rintro ⟨d1, d2, d3, d4, b1, b2, v1, v2, f, hs, -⟩
    have hlen : ( "0000:01:00.0\n".toList).length = 13 := by decide
    rw [hs] at hlen
    simp at hlen

/-- C9 (amended): the firmware-key translation fails — returns the empty
string, the sentinel the callers treat as a malformed address — exactly on
the texts that match neither the canonical pattern of 4 hex digits, colon,
2 hex digits, colon, 2 hex digits, dot and one function digit in the range
0-7, nor that pattern followed by one final newline (which the end anchor of
the host regex engine also accepts). -/
theorem claim_C9_amended (s : List Char) :
    (dmi_key_from_bdf s = [] ↔ bdfGroups s = none) ∧
    (bdfGroups s = none ↔
      ¬ (canonicalBdf s ∨ ∃ t, canonicalBdf t ∧ s = t ++ [ '\n' ])) := by
  constructor
  · cases hg : bdfGroups s with
    | none => simp [dmi_key_from_bdf, hg]
    | some g =>
      obtain ⟨gd, gb, gv, gf⟩ := g
      rw [dmi_key_eq hg]
      simp [toHex4]
  · constructor
    · intro hn hc
      rcases hc with hc | ⟨t, hc, hst⟩
      · obtain ⟨d1, d2, d3, d4, b1, b2, v1, v2, f, hs, hd1, hd2, hd3, hd4,
          hb1, hb2, hv1, hv2, hf1, hf2⟩ := hc
        subst hs
        rw [show bdfGroups [d1, d2, d3, d4, ':', b1, b2, ':', v1, v2, '.', f] =
            some ([d1, d2, d3, d4], [b1, b2], [v1, v2], [f]) from by
          simp only [bdfGroups]
          rw [if_pos]
          exact ⟨trivial, trivial, trivial, hd1, hd2, hd3, hd4,
            hb1, hb2, hv1, hv2, hf1, hf2⟩] at hn
        cases hn
      · obtain ⟨d1, d2, d3, d4, b1, b2, v1, v2, f, hs, hd1, hd2, hd3, hd4,
          hb1, hb2, hv1, hv2, hf1, hf2⟩ := hc
        subst hs
        subst hst
        rw [show bdfGroups ([d1, d2, d3, d4, ':', b1, b2, ':', v1, v2, '.', f] ++ [ '\n' ]) =
            some ([d1, d2, d3, d4], [b1, b2], [v1, v2], [f]) from by
          simp only [List.cons_append, List.nil_append, bdfGroups]
          rw [if_pos]
          exact ⟨trivial, trivial, trivial, trivial, hd1, hd2, hd3, hd4,
            hb1, hb2, hv1, hv2, hf1, hf2⟩] at hn
        cases hn
    · intro hnc
      cases hg : bdfGroups s with
      | none => rfl
      | some g =>
        obtain ⟨gd, gb, gv, gf⟩ := g
        obtain ⟨d1, d2, d3, d4, b1, b2, v1, v2, f, hs, _, _, _, _,
          hd1, hd2, hd3, hd4, hb1, hb2, hv1, hv2, hf1, hf2⟩ := bdfGroups_eq_some hg
        rcases hs with hs | hs
        · exact absurd (Or.inl ⟨d1, d2, d3, d4, b1, b2, v1, v2, f, hs, hd1, hd2, hd3, hd4,
            hb1, hb2, hv1, hv2, hf1, hf2⟩) hnc
        · refine absurd (Or.inr ⟨[d1, d2, d3, d4, ':', b1, b2, ':', v1, v2, '.', f],
            ⟨d1, d2, d3, d4, b1, b2, v1, v2, f, rfl, hd1, hd2, hd3, hd4,
              hb1, hb2, hv1, hv2, hf1, hf2⟩, ?_⟩) hnc
          rw [hs]
          rfl

/-!  SlotResolver: the chassis placement heuristics of tests/test_gpu_pcie.py
lines 166-216, and the label-key derivation of the main test (lines 311-312). -/

/-- Port of riser_side: front/rear by riser group. -/
def riser_side (group : List Char) : List Char :=
  if group = "PCIE_3".toList ∨ group = "PCIE_4".toList then "Front".toList
  else if group = "PCIE_1".toList ∨ group = "PCIE_2".toList then "Rear".toList
  else "ERROR".toList

/-- Port of riser_lr: the left/right table, defaulting to ERROR. -/
def riser_lr (group : List Char) : List Char :=
  if group = "PCIE_1".toList then "Right".toList
  else if group = "PCIE_2".toList then "Left".toList
  else if group = "PCIE_3".toList then "Right".toList
  else if group = "PCIE_4".toList then "Left".toList
  else "ERROR".toList

/-- Port of riser_group_from_desig: re.match of the pattern PCIE_, one or more
digits, underscore, anything; group 1 is PCIE_ plus the digit run, and a
designation that does not match yields the empty string. -/
def riser_group_from_desig (desig : List Char) : List Char :=
  match desig with
  | 'P' :: 'C' :: 'I' :: 'E' :: '_' :: rest =>
    if rest.takeWhile isDigitCh ≠ [] ∧ (rest.dropWhile isDigitCh).head? = some '_' then
      'P' :: 'C' :: 'I' :: 'E' :: '_' :: rest.takeWhile isDigitCh
    else []
  | _ => []

/-- Port of inner_slot_from_dev_with_group: groups PCIE_2 and PCIE_3 invert
the default; the bridge device number is passed as its two-hex-digit text. -/
def inner_slot_from_dev_with_group (group dev_hex : List Char) : List Char :=
  if group = "PCIE_3".toList ∨ group = "PCIE_2".toList then
    if dev_hex = "00".toList then "Bottom".toList
    else if dev_hex = "01".toList then "Top".toList
    else "ERROR".toList
  else if group = "PCIE_1".toList ∨ group = "PCIE_4".toList then
    if dev_hex = "00".toList then "Top".toList
    else if dev_hex = "01".toList then "Bottom".toList
    else "ERROR".toList
  else "ERROR".toList

/-- Port of gpu_label_from_key: the 8-entry label table, defaulting to ERROR. -/
def gpu_label_from_key (key : List Char) : List Char :=
  if key = "PCIE_1_PCIE_1".toList then "GPU1".toList
  else if key = "PCIE_1_PCIE_2".toList then "GPU2".toList
  else if key = "PCIE_2_PCIE_1".toList then "GPU5".toList
  else if key = "PCIE_2_PCIE_2".toList then "GPU6".toList
  else if key = "PCIE_3_PCIE_1".toList then "GPU3".toList
  else if key = "PCIE_3_PCIE_2".toList then "GPU4".toList
  else if key = "PCIE_4_PCIE_1".toList then "GPU7".toList
  else if key = "PCIE_4_PCIE_2".toList then "GPU8".toList
  else "ERROR".toList

/-- The GPU label of a group and inner position, as the main test derives it
(lines 311-312): the key suffix is 1 when the inner position is Top and 2
otherwise, and the label is looked up in the 8-entry table. -/
def gpu_label_from_group_inner (group inner : List Char) : List Char :=
  gpu_label_from_key (group ++ "_PCIE_".toList ++ (if inner = "Top".toList then [ '1' ] else [ '2' ]))

/-- C2 counterexample: the named test vector fails on the code at its last
conjunct — for group PCIE_3 and inner position Top the key is PCIE_3_PCIE_1,
whose table entry is GPU3, not GPU4. -/
theorem claim_C2_counterexample :
    ¬ (riser_group_from_desig ( "PCIE_3_SLOT2".toList) = "PCIE_3".toList ∧
       riser_side ( "PCIE_3".toList) = "Front".toList ∧
       riser_lr ( "PCIE_3".toList) = "Right".toList ∧
       inner_slot_from_dev_with_group ( "PCIE_3".toList) ( "00".toList) = "Bottom".toList ∧
       gpu_label_from_group_inner ( "PCIE_3".toList) ( "Top".toList) = "GPU4".toList) := by
  decide

/-- C2 (amended): the test vector with the label corrected to GPU3 — riser
group extraction, side, left/right and inner position behave as claimed, and
the GPU label for group PCIE_3 with inner position Top is GPU3 (GPU4 is the
Bottom slot of that group). -/
theorem claim_C2_amended :
    riser_group_from_desig ( "PCIE_3_SLOT2".toList) = "PCIE_3".toList ∧
    riser_side ( "PCIE_3".toList) = "Front".toList ∧
    riser_lr ( "PCIE_3".toList) = "Right".toList ∧
    inner_slot_from_dev_with_group ( "PCIE_3".toList) ( "00".toList) = "Bottom".toList ∧
    gpu_label_from_group_inner ( "PCIE_3".toList) ( "Top".toList) = "GPU3".toList ∧
    gpu_label_from_group_inner ( "PCIE_3".toList) ( "Bottom".toList) = "GPU4".toList := by
  decide

/-!  LinkInspector: Python int and float conversion (the ValueError the source
catches is modeled by `none`), and the classifier link_status_tag of
tests/test_gpu_pcie.py lines 94-117.  The int model omits Python's digit-group
underscores and the float model omits the inf and nan words: the fields the
source extracts are digit-and-dot runs, for which the grammars agree, and a
parse failure on either side only ever yields the no-contribution branch. -/

/-- Decimal value of an optionally signed digit run (Python int over a
stripped string, also the exponent tail of a float literal). -/
def signedDigits (s : List Char) : Option Int :=
  match s with
  | '+' :: ds => if ds ≠ [] ∧ ds.all isDigitCh then some ((digitsVal ds : Int)) else none
  | '-' :: ds => if ds ≠ [] ∧ ds.all isDigitCh then some (-(digitsVal ds : Int)) else none
  | ds => if ds ≠ [] ∧ ds.all isDigitCh then some ((digitsVal ds : Int)) else none

/-- Python int(s): strip whitespace, optional sign, one or more digits. -/
def pyInt (s : List Char) : Option Int := signedDigits (pyStrip s)

/-- Exponent tail of a float literal: empty means exponent 0, otherwise the
letter e or E followed by an optionally signed digit run. -/
def parseExpPart : List Char → Option Int
  | [] => some 0
  | 'e' :: r => signedDigits r
  | 'E' :: r => signedDigits r
  | _ => none

/-- Unsigned float literal, read exactly: an integer part, an optional dot and
fraction part — at least one digit between them — and an optional exponent. -/
def parseUFloat (t : List Char) : Option ℚ :=
  let ip := t.takeWhile isDigitCh
  let r1 := t.dropWhile isDigitCh
  match r1 with
  | '.' :: r2 =>
    let fp := r2.takeWhile isDigitCh
    let r3 := r2.dropWhile isDigitCh
    if ip = [] ∧ fp = [] then none
    else (parseExpPart r3).map fun e =>
      ((digitsVal ip : ℚ) + (digitsVal fp : ℚ) / (10 : ℚ) ^ fp.length) * (10 : ℚ) ^ e
  | r3 =>
    if ip = [] then none
    else (parseExpPart r3).map fun e => (digitsVal ip : ℚ) * (10 : ℚ) ^ e

/-- Python float(s) on finite decimal text: strip whitespace, optional sign,
unsigned float literal, read exactly into ℚ. -/
def pyFloat (s : List Char) : Option ℚ :=
  match pyStrip s with
  | '+' :: t => parseUFloat t
  | '-' :: t => (parseUFloat t).map Neg.neg
  | t => parseUFloat t

/-- The first guarded comparison of link_status_tag: lane_down is set when
both width fields are non-empty and parse as ints with the negotiated value
below the capable one; a conversion failure is caught and leaves it false. -/
def lane_down_check (cap_w sta_w : List Char) : Bool :=
  if cap_w ≠ [] ∧ sta_w ≠ [] then
    match pyInt sta_w, pyInt cap_w with
    | some s, some c => decide (s < c)
    | _, _ => false
  else false

/-- The second guarded comparison of link_status_tag: idle is set when both
speed fields are non-empty and parse as floats with the negotiated value below
the capable one; a conversion failure is caught and leaves it false. -/
def idle_check (cap_s sta_s : List Char) : Bool :=
  if cap_s ≠ [] ∧ sta_s ≠ [] then
    match pyFloat sta_s, pyFloat cap_s with
    | some s, some c => decide (s < c)
    | _, _ => false
  else false

/-- Port of link_status_tag: DOWNGRADED on a lane regression, else IDLE on a
speed regression, else OK. -/
def link_status_tag (cap_s cap_w sta_s sta_w : List Char) : List Char :=
  if lane_down_check cap_w sta_w then "DOWNGRADED".toList
  else if idle_check cap_s sta_s then "IDLE".toList
  else "OK".toList

lemma pyInt_nil : pyInt [] = none := rfl

lemma pyFloat_nil : pyFloat [] = none := rfl

lemma lane_down_check_iff {cw sw : List Char} :
    lane_down_check cw sw = true ↔
      ∃ c s : Int, pyInt cw = some c ∧ pyInt sw = some s ∧ s < c := by
  unfold lane_down_check
  by_cases hne : cw ≠ [] ∧ sw ≠ []
  · rw [if_pos hne]
    cases hs : pyInt sw <;> cases hc : pyInt cw <;> simp [hs, hc]
  · rw [if_neg hne]
    constructor
    · intro h
      exact absurd h (by decide)
    · rintro ⟨c, s, hc, hs, _⟩
      exfalso
      rcases not_and_or.mp hne with h | h
      · rw [not_not] at h
        rw [h, pyInt_nil] at hc
        cases hc
      · rw [not_not] at h
        rw [h, pyInt_nil] at hs
        cases hs

lemma idle_check_iff {cs ss : List Char} :
    idle_check cs ss = true ↔
      ∃ c s : ℚ, pyFloat cs = some c ∧ pyFloat ss = some s ∧ s < c := by
  unfold idle_check
  by_cases hne : cs ≠ [] ∧ ss ≠ []
  · rw [if_pos hne]
    cases hs : pyFloat ss <;> cases hc : pyFloat cs <;> simp [hs, hc]
  · rw [if_neg hne]
    constructor
    · intro h
      exact absurd h (by decide)
    · rintro ⟨c, s, hc, hs, _⟩
      exfalso
      rcases not_and_or.mp hne with h | h
      · rw [not_not] at h
        rw [h, pyFloat_nil] at hc
        cases hc
      · rw [not_not] at h
        rw [h, pyFloat_nil] at hs
        cases hs

/-- C3: the classifier returns DOWNGRADED exactly when both width fields are
present and parse as integers with the negotiated width strictly below the
capable width — this takes priority over any speed comparison; failing that
it returns IDLE exactly when both speed fields are present and parse as
decimals with the negotiated speed strictly below the capable speed; and OK
exactly otherwise.  A missing (empty) or unparseable field never contributes
to a DOWNGRADED or IDLE verdict: each verdict condition requires both of its
comparison values to parse. -/
theorem claim_C3 (cap_s cap_w sta_s sta_w : List Char) :
    (link_status_tag cap_s cap_w sta_s sta_w = "DOWNGRADED".toList ↔
      ∃ c s : Int, pyInt cap_w = some c ∧ pyInt sta_w = some s ∧ s < c) ∧
    (link_status_tag cap_s cap_w sta_s sta_w = "IDLE".toList ↔
      (¬ ∃ c s : Int, pyInt cap_w = some c ∧ pyInt sta_w = some s ∧ s < c) ∧
      ∃ c s : ℚ, pyFloat cap_s = some c ∧ pyFloat sta_s = some s ∧ s < c) ∧
    (link_status_tag cap_s cap_w sta_s sta_w = "OK".toList ↔
      (¬ ∃ c s : Int, pyInt cap_w = some c ∧ pyInt sta_w = some s ∧ s < c) ∧
      ¬ ∃ c s : ℚ, pyFloat cap_s = some c ∧ pyFloat sta_s = some s ∧ s < c) := by
  have hDI : ("DOWNGRADED".toList : List Char) ≠ "IDLE".toList := by decide
  have hDO : ("DOWNGRADED".toList : List Char) ≠ "OK".toList := by decide
  have hIO : ("IDLE".toList : List Char) ≠ "OK".toList := by decide
  unfold link_status_tag
  rw [← lane_down_check_iff, ← idle_check_iff]
  by_cases h1 : lane_down_check cap_w sta_w <;> by_cases h2 : idle_check cap_s sta_s <;>
    simp [h1, h2, hDI, hDO, hIO, hDI.symm, hDO.symm, hIO.symm]

/-- C10: the classifier is total — every quadruple of field texts, including
empty and unparseable ones, yields exactly one of the three tags (the
conversion failures Python would raise are caught inside the two checks and
contribute nothing). -/
theorem claim_C10 (cap_s cap_w sta_s sta_w : List Char) :
    link_status_tag cap_s cap_w sta_s sta_w = "OK".toList ∨
    link_status_tag cap_s cap_w sta_s sta_w = "IDLE".toList ∨
    link_status_tag cap_s cap_w sta_s sta_w = "DOWNGRADED".toList := by
  unfold link_status_tag
  by_cases h1 : lane_down_check cap_w sta_w <;> by_cases h2 : idle_check cap_s sta_s <;>
    simp [h1, h2]

/-!  SlotCatalog: parse_dmi_slots (tests/test_gpu_pcie.py lines 134-161).
The tool-availability check and the external dmidecode call are the caller's
concern; the parser takes the dump text.  The block separator regex (newline,
whitespace run, newline) is modeled greedily: the maximal whitespace prefix
cut after its last contained newline.  The multiline-anchored field searches
are modeled line by line; the corner case where the whitespace class of the
pattern would cross a line boundary (a field label with nothing after it on
its line) is modeled as a non-match of that line. -/

/-- Index of the last newline in a list, when one exists. -/
def lastNlIdx : List Char → Option Nat
  | [] => none
  | c :: t =>
    match lastNlIdx t with
    | some i => some (i + 1)
    | none => if c = '\n' then some 0 else none

/-- One match of the block-separator regex anchored at the head of the text:
a newline, then — greedily, with the backtracked final newline — the maximal
whitespace run cut after its last newline.  Returns the remainder. -/
def sepAt : List Char → Option (List Char)
  | '\n' :: t =>
    match lastNlIdx (t.takeWhile isPySpace) with
    | some i => some (t.drop (i + 1))
    | none => none
  | _ => none

/-- Fuel-indexed scan of re.split: cut at each leftmost separator match,
non-overlapping; fuel equal to the text length always suffices. -/
def splitAux : Nat → List Char → List Char → List (List Char)
  | _, acc, [] => [acc.reverse]
  | 0, acc, rest => [acc.reverse ++ rest]
  | n + 1, acc, c :: cs =>
    match sepAt (c :: cs) with
    | some rest => acc.reverse :: splitAux n [] rest
    | none => splitAux n (c :: acc) cs

/-- The blank-line-separated blocks of a firmware slot-table dump. -/
def pySplitBlocks (s : List Char) : List (List Char) := splitAux s.length [] s

/-- One line matched against a multiline-anchored field pattern (optional
whitespace, the label, optional whitespace, a non-empty capture to the line
end): returns the raw capture — when everything after the label is whitespace,
the backtracking greedy run leaves exactly its last character for the
capture.  The callers strip the capture. -/
def lineFieldTail (field line : List Char) : Option (List Char) :=
  let t := line.dropWhile isPySpace
  if field.isPrefixOf t then
    let tail := t.drop field.length
    if tail = [] then none
    else if tail.all isPySpace then some (tail.drop (tail.length - 1))
    else some (tail.dropWhile isPySpace)
  else none

/-- re.search of a field pattern over a block in multiline mode: the first
matching line wins. -/
def searchField (field : List Char) : List (List Char) → Option (List Char)
  | [] => none
  | line :: rest =>
    match lineFieldTail field line with
    | some g => some g
    | none => searchField field rest

/-- The slot-table address pattern: 4 hex digits, colon, 2 hex digits, colon,
2 hex digits, dot, one hex digit — the final digit is any hex digit here,
wider than the canonical function range. -/
def dmiAddrPat : List Char → Bool
  | [d1, d2, d3, d4, c1, b1, b2, c2, v1, v2, p, f] =>
    decide (c1 = ':' ∧ c2 = ':' ∧ p = '.' ∧
      isHexCh d1 = true ∧ isHexCh d2 = true ∧ isHexCh d3 = true ∧ isHexCh d4 = true ∧
      isHexCh b1 = true ∧ isHexCh b2 = true ∧ isHexCh v1 = true ∧ isHexCh v2 = true ∧
      isHexCh f = true)
  | _ => false

/-- One line matched against the anchored Bus Address pattern: optional
whitespace, the label (12 characters), optional whitespace, then exactly an
address reaching the end of the line. -/
def lineBusAddr (line : List Char) : Option (List Char) :=
  let t := line.dropWhile isPySpace
  if ( "Bus Address:".toList).isPrefixOf t then
    let addr := (t.drop 12).dropWhile isPySpace
    if dmiAddrPat addr then some addr else none
  else none

/-- re.search of the Bus Address pattern over a block in multiline mode. -/
def searchBusAddr : List (List Char) → Option (List Char)
  | [] => none
  | line :: rest =>
    match lineBusAddr line with
    | some a => some a
    | none => searchBusAddr rest

/-- The loop state of parse_dmi_slots: the carried designation and type and
the two maps built so far. -/
structure DmiState where
  desig : List Char
  ty : List Char
  desigMap : List (List Char × List Char)
  typeMap : List (List Char × List Char)
deriving DecidableEq

/-- The state before the first block: nothing carried, empty maps. -/
def dmiInit : DmiState := ⟨[], [], [], []⟩

/-- A block's own stripped Designation value, when its field search hits. -/
def dmiBlockDesig (b : List Char) : Option (List Char) :=
  (searchField ( "Designation:".toList) (linesOf b)).map pyStrip

/-- A block's own stripped Type value, when its field search hits. -/
def dmiBlockType (b : List Char) : Option (List Char) :=
  (searchField ( "Type:".toList) (linesOf b)).map pyStrip

/-- The designation in effect for a block: its own when the search hits, the
carried one otherwise. -/
def dmiEffDesig (st : DmiState) (b : List Char) : List Char := (dmiBlockDesig b).getD st.desig

/-- The type in effect for a block. -/
def dmiEffType (st : DmiState) (b : List Char) : List Char := (dmiBlockType b).getD st.ty

/-- The loop body of parse_dmi_slots on one block: skip blank blocks, update
the carried designation and type from the block's own fields, and when the
block has a Bus Address and the carried designation is non-empty, record
designation and type (the latter defaulting to Unknown) under that address. -/
def dmiStep (st : DmiState) (b : List Char) : DmiState :=
  if pyStrip b = [] then st
  else
    match searchBusAddr (linesOf b) with
    | some addr =>
      if dmiEffDesig st b ≠ [] then
        ⟨dmiEffDesig st b, dmiEffType st b,
          dictInsert st.desigMap addr (dmiEffDesig st b),
          dictInsert st.typeMap addr
            (if dmiEffType st b = [] then "Unknown".toList else dmiEffType st b)⟩
      else ⟨dmiEffDesig st b, dmiEffType st b, st.desigMap, st.typeMap⟩
    | none => ⟨dmiEffDesig st b, dmiEffType st b, st.desigMap, st.typeMap⟩

/-- Port of parse_dmi_slots: fold the loop body over the blank-line-separated
blocks and return the two maps. -/
def parse_dmi_slots (out : List Char) :
    List (List Char × List Char) × List (List Char × List Char) :=
  ((List.foldl dmiStep dmiInit (pySplitBlocks out)).desigMap,
   (List.foldl dmiStep dmiInit (pySplitBlocks out)).typeMap)

lemma dmiStep_no_desig (st : DmiState) (b : List Char) (h : dmiEffDesig st b = []) :
    (dmiStep st b).desigMap = st.desigMap ∧ (dmiStep st b).typeMap = st.typeMap := by
  unfold dmiStep
  by_cases hb : pyStrip b = []
  · rw [if_pos hb]
    exact ⟨rfl, rfl⟩
  · rw [if_neg hb]
    cases ha : searchBusAddr (linesOf b) with
    | some addr => simp [h]
    | none => exact ⟨rfl, rfl⟩

lemma dmiStep_desig_carry (st : DmiState) (b : List Char) (h : pyStrip b ≠ []) :
    (dmiStep st b).desig = dmiEffDesig st b ∧ (dmiStep st b).ty = dmiEffType st b := by
  unfold dmiStep
  rw [if_neg h]
  cases ha : searchBusAddr (linesOf b) with
  | some addr =>
    dsimp only
    by_cases hd : dmiEffDesig st b ≠ []
    · rw [if_pos hd]
      exact ⟨rfl, rfl⟩
    · rw [if_neg hd]
      exact ⟨rfl, rfl⟩
  | none => exact ⟨rfl, rfl⟩

lemma dmiFold_no_desig :
    ∀ (blocks : List (List Char)) (st : DmiState), st.desig = [] →
      (∀ b ∈ blocks, dmiBlockDesig b = none ∨ dmiBlockDesig b = some []) →
      (List.foldl dmiStep st blocks).desigMap = st.desigMap ∧
      (List.foldl dmiStep st blocks).typeMap = st.typeMap
  | [], st, _, _ => ⟨rfl, rfl⟩
  | b :: blocks, st, hst, hall => by
    have hb : dmiEffDesig st b = [] := by
      unfold dmiEffDesig
      rcases hall b (List.mem_cons_self b blocks) with h | h <;> rw [h]
      · exact hst
      · rfl
    have hstep := dmiStep_no_desig st b hb
    have hdes : (dmiStep st b).desig = [] := by
      by_cases hs : pyStrip b = []
      · rw [show dmiStep st b = st from by unfold dmiStep; rw [if_pos hs]]
        exact hst
      · rw [(dmiStep_desig_carry st b hs).1]
        exact hb
    have ih := dmiFold_no_desig blocks (dmiStep st b) hdes
      (fun x hx => hall x (List.mem_cons_of_mem b hx))
    rw [List.foldl_cons]
    exact ⟨ih.1.trans hstep.1, ih.2.trans hstep.2⟩

/-- C5: the catalog builder folds over the blank-line-separated blocks of the
dump with a carried designation and type.  A blank block changes nothing; a
non-blank block updates the carried values to its own fields when present; a
block with a Bus Address and a non-empty effective designation records one
entry in each map, keyed by that address, carrying designation and type (the
type defaulting to Unknown); a block whose effective designation is empty —
in particular any block with a Bus Address before the first Designation —
adds nothing, and a dump whose blocks never supply a designation yields empty
maps however many Bus Addresses it contains (silently dropped, not an
error). -/
theorem claim_C5 (out : List Char) :
    parse_dmi_slots out =
      ((List.foldl dmiStep dmiInit (pySplitBlocks out)).desigMap,
       (List.foldl dmiStep dmiInit (pySplitBlocks out)).typeMap) ∧
    (∀ st b, pyStrip b = [] → dmiStep st b = st) ∧
    (∀ st b, pyStrip b ≠ [] →
      (dmiStep st b).desig = dmiEffDesig st b ∧ (dmiStep st b).ty = dmiEffType st b) ∧
    (∀ st b addr, pyStrip b ≠ [] → searchBusAddr (linesOf b) = some addr →
      dmiEffDesig st b ≠ [] →
      (dmiStep st b).desigMap = dictInsert st.desigMap addr (dmiEffDesig st b) ∧
      (dmiStep st b).typeMap = dictInsert st.typeMap addr
        (if dmiEffType st b = [] then "Unknown".toList else dmiEffType st b)) ∧
    (∀ st b, dmiEffDesig st b = [] →
      (dmiStep st b).desigMap = st.desigMap ∧ (dmiStep st b).typeMap = st.typeMap) ∧
    (∀ blocks, (∀ b ∈ blocks, dmiBlockDesig b = none ∨ dmiBlockDesig b = some []) →
      (List.foldl dmiStep dmiInit blocks).desigMap = [] ∧
      (List.foldl dmiStep dmiInit blocks).typeMap = []) := by
  refine ⟨rfl, ?_, dmiStep_desig_carry, ?_, dmiStep_no_desig, ?_⟩
  · intro st b hb
    unfold dmiStep
    rw [if_pos hb]
  · intro st b addr hb ha hd
    unfold dmiStep
    rw [if_neg hb, ha]
    dsimp only
    rw [if_pos hd]
    exact ⟨rfl, rfl⟩
  · intro blocks hall
    exact dmiFold_no_desig blocks dmiInit rfl hall

/-- C5 witness: a concrete block holding a designation and a bus address, run
through the emission conjunct of the theorem from the initial state. -/
theorem claim_C5_witness :
    pyStrip ( "Designation: J1\nBus Address: 0000:c1:00.0".toList) ≠ [] ∧
    searchBusAddr (linesOf ( "Designation: J1\nBus Address: 0000:c1:00.0".toList)) =
      some ( "0000:c1:00.0".toList) ∧
    dmiEffDesig dmiInit ( "Designation: J1\nBus Address: 0000:c1:00.0".toList) ≠ [] ∧
    (dmiStep dmiInit ( "Designation: J1\nBus Address: 0000:c1:00.0".toList)).desigMap =
      dictInsert dmiInit.desigMap ( "0000:c1:00.0".toList)
        (dmiEffDesig dmiInit ( "Designation: J1\nBus Address: 0000:c1:00.0".toList)) :=
  ⟨by decide, by decide, by decide,
    ((claim_C5 []).2.2.2.1 dmiInit ( "Designation: J1\nBus Address: 0000:c1:00.0".toList)
      ( "0000:c1:00.0".toList) (by decide) (by decide) (by decide)).1⟩

/-!  BusScanner: discover_gpu_bdfs (tests/test_gpu_pcie.py lines 222-261).
The external lspci call and the tool-availability skip are the caller's
concern; the filter takes the listing text.  Python's sorted over a set is
modeled as a stable merge sort over the deduplicated list: the claims touch
only membership and sortedness, which do not depend on set iteration order. -/

/-- One line of the lspci listing matched against the anchored pattern:
a four-hex-digit domain group, the domainless BDF group (bus, colon, device,
dot, function digit 0-7), at least one whitespace character, and the rest. -/
def matchLspciLine (line : List Char) : Option (List Char × List Char × List Char) :=
  match line with
  | d1 :: d2 :: d3 :: d4 :: c1 :: b1 :: b2 :: c2 :: v1 :: v2 :: p :: f :: rest =>
    if c1 = ':' ∧ c2 = ':' ∧ p = '.' ∧
        isHexCh d1 ∧ isHexCh d2 ∧ isHexCh d3 ∧ isHexCh d4 ∧
        isHexCh b1 ∧ isHexCh b2 ∧ isHexCh v1 ∧ isHexCh v2 ∧
        48 ≤ f.toNat ∧ f.toNat ≤ 55 ∧ rest.takeWhile isPySpace ≠ [] then
      some ([d1, d2, d3, d4], [b1, b2, ':', v1, v2, '.', f], rest.dropWhile isPySpace)
    else none
  | _ => none

/-- The class acceptance on the rest of a matched line: bracketed numeric
class 0300 or 0302, or one of the two class-text labels. -/
def classOk (rest : List Char) : Bool :=
  containsSub ( "[0300]".toList) rest || containsSub ( "[0302]".toList) rest ||
  containsSub ( "VGA compatible controller".toList) rest ||
  containsSub ( "3D controller".toList) rest

/-- The vendor acceptance: the lower-cased line contains the 10de marker. -/
def vendorOk (line : List Char) : Bool :=
  containsSub ( "[10de:".toList) (line.map toLowerAscii)

/-- The filtered, unsorted device list: for each listing line that passes the
vendor test and matches the address pattern with an accepted class, the
domainless BDF text. -/
def gpuLines (txt : List Char) : List (List Char) :=
  (pySplitlines txt).filterMap fun line =>
    if vendorOk line then
      match matchLspciLine line with
      | some t => if classOk t.2.2 then some t.2.1 else none
      | none => none
    else none

/-- The sort key of a domainless BDF text: bus and device as hex, the
function digit as decimal (the shape every filtered entry has; any other
shape — on which the Python key function would raise — maps to zeros). -/
def keyFn (s : List Char) : Nat × Nat × Nat :=
  match s with
  | [b1, b2, _, v1, v2, _, f] =>
    (hexVal b1 * 16 + hexVal b2, hexVal v1 * 16 + hexVal v2, f.toNat - 48)
  | _ => (0, 0, 0)

/-- Lexicographic comparison of the sort keys, as Python compares tuples. -/
def keyLe (a b : List Char) : Bool :=
  decide ((keyFn a).1 < (keyFn b).1 ∨ ((keyFn a).1 = (keyFn b).1 ∧
    ((keyFn a).2.1 < (keyFn b).2.1 ∨ ((keyFn a).2.1 = (keyFn b).2.1 ∧
      (keyFn a).2.2 ≤ (keyFn b).2.2))))

/-- Port of discover_gpu_bdfs on the listing text: filter, deduplicate (the
Python set), and sort by (bus, device, function). -/
def discover_gpu_bdfs (txt : List Char) : List (List Char) :=
  ((gpuLines txt).dedup).mergeSort keyLe

lemma keyLe_trans : ∀ a b c, keyLe a b = true → keyLe b c = true → keyLe a c = true := by
  intro a b c hab hbc
  simp only [keyLe, decide_eq_true_eq] at *
  omega

lemma keyLe_total : ∀ a b, (keyLe a b || keyLe b a) = true := by
  intro a b
  simp only [keyLe, Bool.or_eq_true, decide_eq_true_eq]
  omega

lemma gpuLines_mem {txt : List Char} {s : List Char} :
    s ∈ gpuLines txt ↔
      ∃ line ∈ pySplitlines txt, vendorOk line = true ∧
        ∃ dom rest, matchLspciLine line = some (dom, s, rest) ∧ classOk rest = true := by
  unfold gpuLines
  rw [List.mem_filterMap]
  constructor
  · rintro ⟨line, hline, hf⟩
    by_cases hv : vendorOk line = true
    · rw [if_pos hv] at hf
      cases hm : matchLspciLine line with
      | none => rw [hm] at hf; cases hf
      | some t =>
        obtain ⟨dom, nodom, rest⟩ := t
        rw [hm] at hf
        dsimp only at hf
        by_cases hcl : classOk rest = true
        · rw [if_pos hcl] at hf
          injection hf with hf
          subst hf
          exact ⟨line, hline, hv, dom, rest, hm, hcl⟩
        · rw [if_neg hcl] at hf
          cases hf
    · rw [if_neg hv] at hf
      cases hf
  · rintro ⟨line, hline, hv, dom, rest, hm, hcl⟩
    refine ⟨line, hline, ?_⟩
    rw [if_pos hv, hm]
    dsimp only
    rw [if_pos hcl]

/-- C7: the discovered list is sorted ascending by the (bus, device, function)
key, and it contains a BDF exactly when some line of the listing passes the
vendor test (the lower-cased line contains the 10de marker), matches the
address pattern with that BDF as its domainless group, and carries an
accepted class — numeric 0300 or 0302 in brackets, or one of the two class
text labels. -/
theorem claim_C7 (txt : List Char) :
    List.Pairwise (fun a b => keyLe a b = true) (discover_gpu_bdfs txt) ∧
    ∀ s, s ∈ discover_gpu_bdfs txt ↔
      ∃ line ∈ pySplitlines txt, vendorOk line = true ∧
        ∃ dom rest, matchLspciLine line = some (dom, s, rest) ∧ classOk rest = true := by
  constructor
  · exact List.sorted_mergeSort keyLe_trans keyLe_total ((gpuLines txt).dedup)
  · intro s
    rw [discover_gpu_bdfs, List.mem_mergeSort, List.mem_dedup]
    exact gpuLines_mem

/-- C7 witness: the theorem applied to a one-line listing text — the line's
device is accepted, so its domainless BDF is in the discovered list, which is
sorted. -/
theorem claim_C7_witness :
    List.Pairwise (fun a b => keyLe a b = true)
      (discover_gpu_bdfs ( "0000:c1:00.0 VGA compatible controller [0300]: NVIDIA [10de:2204]".toList)) ∧
    ( "c1:00.0".toList) ∈
      discover_gpu_bdfs ( "0000:c1:00.0 VGA compatible controller [0300]: NVIDIA [10de:2204]".toList) :=
  ⟨(claim_C7 ( "0000:c1:00.0 VGA compatible controller [0300]: NVIDIA [10de:2204]".toList)).1,
    ((claim_C7 ( "0000:c1:00.0 VGA compatible controller [0300]: NVIDIA [10de:2204]".toList)).2
        ( "c1:00.0".toList)).mpr
      ⟨( "0000:c1:00.0 VGA compatible controller [0300]: NVIDIA [10de:2204]".toList),
        by decide, by decide, ( "0000".toList),
        ( "VGA compatible controller [0300]: NVIDIA [10de:2204]".toList), by decide, by decide⟩⟩

/-!  TopologyWalker and the main test loop (tests/test_gpu_pcie.py lines
59-65 and 266-340).  The external queries — the resolved sysfs path of a
device, the four link fields, the short device name and the designation
catalog — are supplied by an environment record; the loop body, the chain
extraction (re.findall over the resolved path) and the aggregation with its
final assertion are ported.  The re-match of the last bridge inside the loop
can raise on a text not shaped like an address; that exception is modeled by
`none` from the loop body, and it is proved unreachable for the chains the
findall scan produces. -/

/-- One scan step of re.findall for the chain pattern: the literal domain
0000, colon, two hex digits, colon, two hex digits, dot, one function digit
0-7, tried at the head of the text; on success, the matched text and the
remainder after it. -/
def matchBdfAt : List Char → Option (List Char × List Char)
  | c0 :: c1 :: c2 :: c3 :: c4 :: b1 :: b2 :: c7 :: d1 :: d2 :: c10 :: f :: rest =>
    if c0 = '0' ∧ c1 = '0' ∧ c2 = '0' ∧ c3 = '0' ∧ c4 = ':' ∧ c7 = ':' ∧ c10 = '.' ∧
        isHexCh b1 ∧ isHexCh b2 ∧ isHexCh d1 ∧ isHexCh d2 ∧
        48 ≤ f.toNat ∧ f.toNat ≤ 55 then
      some ([c0, c1, c2, c3, c4, b1, b2, c7, d1, d2, c10, f], rest)
    else none
  | _ => none

/-- Fuel-indexed scan of re.findall: at each position try a match, consume it
whole on success (non-overlapping) and move one character otherwise; fuel
equal to the text length always suffices. -/
def findallBdfAux : Nat → List Char → List (List Char)
  | 0, _ => []
  | _ + 1, [] => []
  | n + 1, c :: cs =>
    match matchBdfAt (c :: cs) with
    | some (m, rest) => m :: findallBdfAux n rest
    | none => findallBdfAux n cs

/-- The chain extraction of get_chain_for_device: every match of the address
pattern in the resolved sysfs path text, in order. -/
def findallBdf (s : List Char) : List (List Char) := findallBdfAux s.length s

lemma matchBdfAt_some {s m rest : List Char} (h : matchBdfAt s = some (m, rest)) :
    ∃ g, bdfGroups m = some g := by
  unfold matchBdfAt at h
  split at h
  · next c0 c1 c2 c3 c4 b1 b2 c7 d1 d2 c10 f rest' =>
    split at h
    · next hc =>
      obtain ⟨h0, h1, h2, h3, h4, h7, h10, hb1, hb2, hd1, hd2, hf1, hf2⟩ := hc
      injection h with hm
      simp only [Prod.mk.injEq] at hm
      obtain ⟨hm, _⟩ := hm
      subst h0 h1 h2 h3 h4 h7 h10
      refine ⟨([ '0', '0', '0', '0' ], [b1, b2], [d1, d2], [f]), ?_⟩
      rw [← hm]
      simp only [bdfGroups]
      rw [if_pos]
      exact ⟨trivial, trivial, trivial, by decide, by decide, by decide, by decide,
        hb1, hb2, hd1, hd2, hf1, hf2⟩
    · cases h
  · cases h

lemma findallBdfAux_shape : ∀ (n : Nat) (s m : List Char),
    m ∈ findallBdfAux n s → ∃ g, bdfGroups m = some g := by
  intro n
  induction n with
  | zero =>
    intro s m h
    cases h
  | succ n ih =>
    intro s m h
    cases s with
    | nil => cases h
    | cons c cs =>
      rw [findallBdfAux] at h
      cases hm : matchBdfAt (c :: cs) with
      | some p =>
        obtain ⟨mm, rest⟩ := p
        rw [hm] at h
        rcases List.mem_cons.mp h with h | h
        · subst h
          exact matchBdfAt_some hm
        · exact ih rest m h
      | none =>
        rw [hm] at h
        exact ih cs m h

lemma findallBdf_shape {s m : List Char} (h : m ∈ findallBdf s) :
    ∃ g, bdfGroups m = some g :=
  findallBdfAux_shape s.length s m h

lemma mem_getD {α : Type} : ∀ (l : List α) (n : Nat) (d : α), n < l.length → l.getD n d ∈ l
  | a :: l, 0, d, _ => by simp
  | a :: l, n + 1, d, h => by
    rw [List.getD_cons_succ]
    exact List.mem_cons_of_mem a (mem_getD l n d (by simpa using h))

/-- The external queries the main test makes, as an environment: the
discovered GPU list, the resolved sysfs path per device, the four link
fields grep'd from the device's capability and status lines, the short
device name, and the firmware designation catalog. -/
structure GpuEnv where
  gpus : List (List Char)
  realpath : List Char → List Char
  linkFields : List Char → List Char × List Char × List Char × List Char
  shortName : List Char → List Char
  dmi_desig : List (List Char × List Char)

/-- One row of the table the test prints, as saved at lines 319-323. -/
structure GpuRow where
  bdf : List Char
  name : List Char
  slot_name : List Char
  location : List Char
  status : List Char
  cap_s : List Char
  sta_s : List Char
  cap_w : List Char
  sta_w : List Char
deriving DecidableEq

/-- The outcome of the loop body for one GPU: skipped for an incomplete
chain, or a recorded row. -/
inductive GpuStep where
  | incomplete : GpuStep
  | row : GpuRow → GpuStep
deriving DecidableEq

/-- The question-mark placeholder of the table columns: Python value or-else. -/
def orQmark (s : List Char) : List Char := if s = [] then "?".toList else s

/-- The row recorded for a GPU with a complete chain, given the device-number
group text of the chain's last bridge: translate the chain's root port to a
firmware key, look it up (a miss yields the dash placeholder), run the
resolver pipeline, classify the link and fill the table fields. -/
def mkGpuRow (env : GpuEnv) (g dev : List Char) : GpuRow :=
  let slot := (List.lookup (dmi_key_from_bdf ((findallBdf (env.realpath g)).getD 0 []))
    env.dmi_desig).getD ( "-".toList)
  let group := riser_group_from_desig slot
  let inner := inner_slot_from_dev_with_group group dev
  let key := group ++ "_PCIE_".toList ++ (if inner = "Top".toList then [ '1' ] else [ '2' ])
  { bdf := g
    name := env.shortName g
    slot_name := gpu_label_from_key key ++ " (".toList ++ key ++ ")".toList
    location := riser_side group ++ '-' :: riser_lr group ++ '-' :: inner
    status := link_status_tag (env.linkFields g).1 (env.linkFields g).2.1
      (env.linkFields g).2.2.1 (env.linkFields g).2.2.2
    cap_s := orQmark (env.linkFields g).1
    sta_s := orQmark (env.linkFields g).2.2.1
    cap_w := orQmark (env.linkFields g).2.1
    sta_w := orQmark (env.linkFields g).2.2.2 }

/-- The loop body of the main test (lines 287-325): resolve the chain, record
`incomplete` when it has fewer than two addresses, otherwise re-match the last
bridge — `none` models the exception a non-address text would raise there —
and record the row. -/
def processGpu (env : GpuEnv) (g : List Char) : Option GpuStep :=
  if (findallBdf (env.realpath g)).length < 2 then some GpuStep.incomplete
  else
    match bdfGroups ((findallBdf (env.realpath g)).getD
        ((findallBdf (env.realpath g)).length - 2) []) with
    | none => none
    | some gr => some (GpuStep.row (mkGpuRow env g gr.2.2.1))

/-- The aggregation of the main test: process the GPUs in order, collecting
the rows and, in order, the BDFs whose row is DOWNGRADED (the list the final
assertion tests for emptiness). -/
def runChecks (env : GpuEnv) : List (List Char) → Option (List GpuRow × List (List Char))
  | [] => some ([], [])
  | g :: gs =>
    match processGpu env g with
    | none => none
    | some GpuStep.incomplete => runChecks env gs
    | some (GpuStep.row r) =>
      match runChecks env gs with
      | none => none
      | some (rows, dg) =>
        some (r :: rows, if r.status = "DOWNGRADED".toList then g :: dg else dg)

lemma processGpu_cases (env : GpuEnv) (g : List Char) :
    (processGpu env g = some GpuStep.incomplete ∧ (findallBdf (env.realpath g)).length < 2) ∨
    (∃ dev, processGpu env g = some (GpuStep.row (mkGpuRow env g dev)) ∧
      ¬ (findallBdf (env.realpath g)).length < 2) := by
  unfold processGpu
  by_cases h : (findallBdf (env.realpath g)).length < 2
  · left
    rw [if_pos h]
    exact ⟨rfl, h⟩
  · right
    have hmem : (findallBdf (env.realpath g)).getD
        ((findallBdf (env.realpath g)).length - 2) [] ∈ findallBdf (env.realpath g) :=
      mem_getD _ _ _ (by omega)
    obtain ⟨gr, hgr⟩ := findallBdf_shape hmem
    refine ⟨gr.2.2.1, ?_, h⟩
    rw [if_neg h, hgr]

lemma runChecks_spec (env : GpuEnv) : ∀ gs : List (List Char), ∃ rows dg,
    runChecks env gs = some (rows, dg) ∧
    rows.map GpuRow.bdf =
      gs.filter (fun x => ! decide ((findallBdf (env.realpath x)).length < 2)) ∧
    dg = (rows.filter (fun r => r.status = "DOWNGRADED".toList)).map GpuRow.bdf ∧
    ∀ r ∈ rows, ∃ g dev, r = mkGpuRow env g dev := by
  intro gs
  induction gs with
  | nil => exact ⟨[], [], rfl, rfl, rfl, by intro r hr; cases hr⟩
  | cons g gs ih =>
    obtain ⟨rows, dg, h1, h2, h3, h4⟩ := ih
    rcases processGpu_cases env g with ⟨hp, hlen⟩ | ⟨dev, hp, hlen⟩
    · refine ⟨rows, dg, ?_, ?_, h3, h4⟩
      · simp only [runChecks, hp]
        exact h1
      · rw [List.filter_cons, if_neg (by simp [hlen])]
        exact h2
    · refine ⟨mkGpuRow env g dev :: rows,
        if (mkGpuRow env g dev).status = "DOWNGRADED".toList then g :: dg else dg, ?_, ?_, ?_, ?_⟩
      · simp only [runChecks, hp, h1]
      · rw [List.filter_cons, if_pos (by simp [hlen]), List.map_cons, h2]
        rfl
      · rw [List.filter_cons]
        by_cases hst : (mkGpuRow env g dev).status = "DOWNGRADED".toList
        · rw [if_pos hst, if_pos (by simpa using hst), List.map_cons, h3]
          rfl
        · rw [if_neg hst, if_neg (by simpa using hst), h3]
      · intro r hr
        rcases List.mem_cons.mp hr with h | h
        · exact ⟨g, dev, h⟩
        · exact h4 r h

lemma link_status_tag_total (cap_s cap_w sta_s sta_w : List Char) :
    link_status_tag cap_s cap_w sta_s sta_w = "OK".toList ∨
    link_status_tag cap_s cap_w sta_s sta_w = "IDLE".toList ∨
    link_status_tag cap_s cap_w sta_s sta_w = "DOWNGRADED".toList := by
  unfold link_status_tag
  by_cases h1 : lane_down_check cap_w sta_w <;> by_cases h2 : idle_check cap_s sta_s <;>
    simp [h1, h2]

/-- C4: the aggregation completes, and the downgraded list the final
assertion tests is empty — the run passes — exactly when no recorded row
carries verdict DOWNGRADED; every recorded row's verdict is OK, IDLE or
DOWNGRADED, so a run whose every classified GPU is OK or IDLE passes (IDLE
never fails the run), and the run fails exactly when at least one GPU in the
pass/fail set is DOWNGRADED. -/
theorem claim_C4 (env : GpuEnv) :
    ∃ rows dg, runChecks env env.gpus = some (rows, dg) ∧
      ((dg = []) ↔ ∀ r ∈ rows, r.status ≠ "DOWNGRADED".toList) ∧
      ∀ r ∈ rows, r.status = "OK".toList ∨ r.status = "IDLE".toList ∨
        r.status = "DOWNGRADED".toList := by
  obtain ⟨rows, dg, h1, _, h3, h4⟩ := runChecks_spec env env.gpus
  refine ⟨rows, dg, h1, ?_, ?_⟩
  · rw [h3]
    simp [List.filter_eq_nil_iff]
  · intro r hr
    obtain ⟨g, dev, rfl⟩ := h4 r hr
    exact link_status_tag_total _ _ _ _

/-- C6: a GPU whose resolved chain has fewer than two addresses is recorded
as incomplete — no row, hence no slot resolution, no link classification and
no membership in the pass/fail set — while the aggregation still completes;
its rows are exactly, in order, the GPUs with complete chains, and the
pass/fail list is drawn from those rows alone. -/
theorem claim_C6 (env : GpuEnv) (g : List Char)
    (h : (findallBdf (env.realpath g)).length < 2) :
    processGpu env g = some GpuStep.incomplete ∧
    ∃ rows dg, runChecks env env.gpus = some (rows, dg) ∧
      rows.map GpuRow.bdf =
        env.gpus.filter (fun x => ! decide ((findallBdf (env.realpath x)).length < 2)) ∧
      dg = (rows.filter (fun r => r.status = "DOWNGRADED".toList)).map GpuRow.bdf := by
  constructor
  · unfold processGpu
    rw [if_pos h]
  · obtain ⟨rows, dg, h1, h2, h3, _⟩ := runChecks_spec env env.gpus
    exact ⟨rows, dg, h1, h2, h3⟩

lemma inner_slot_nil (dev : List Char) :
    inner_slot_from_dev_with_group [] dev = "ERROR".toList := by
  unfold inner_slot_from_dev_with_group
  rw [if_neg (by decide), if_neg (by decide)]

lemma mkGpuRow_miss (env : GpuEnv) (g dev : List Char)
    (hmiss : List.lookup (dmi_key_from_bdf ((findallBdf (env.realpath g)).getD 0 []))
      env.dmi_desig = none) :
    (mkGpuRow env g dev).slot_name = "ERROR (_PCIE_2)".toList ∧
    (mkGpuRow env g dev).location = "ERROR-ERROR-ERROR".toList := by
  unfold mkGpuRow
  rw [hmiss]
  dsimp only
  rw [show riser_group_from_desig (Option.getD none ( "-".toList)) = [] from by decide]
  rw [inner_slot_nil dev]
  rw [if_neg (by decide)]
  exact ⟨by decide, by decide⟩

/-- C8: a GPU with a complete chain whose root-port firmware key has no
record in the catalog is still recorded as a row — it remains in the
pass/fail set — with its verdict computed from the link fields alone, while
its slot label and location are the error placeholders (the dash designation
resolves to no riser group); the missing firmware record by itself never
makes the verdict DOWNGRADED. -/
theorem claim_C8 (env : GpuEnv) (g : List Char)
    (hlen : ¬ (findallBdf (env.realpath g)).length < 2)
    (hmiss : List.lookup (dmi_key_from_bdf ((findallBdf (env.realpath g)).getD 0 []))
      env.dmi_desig = none) :
    ∃ r, processGpu env g = some (GpuStep.row r) ∧ r.bdf = g ∧
      r.status = link_status_tag (env.linkFields g).1 (env.linkFields g).2.1
        (env.linkFields g).2.2.1 (env.linkFields g).2.2.2 ∧
      r.slot_name = "ERROR (_PCIE_2)".toList ∧
      r.location = "ERROR-ERROR-ERROR".toList := by
  rcases processGpu_cases env g with ⟨_, hl⟩ | ⟨dev, hp, _⟩
  · exact absurd hl hlen
  · obtain ⟨hs, hl⟩ := mkGpuRow_miss env g dev hmiss
    exact ⟨mkGpuRow env g dev, hp, rfl, rfl, hs, hl⟩

/-- A concrete environment: one GPU with a complete two-address chain, full
link fields, an empty firmware catalog. -/
def envW8 : GpuEnv :=
  { gpus := [ "01:00.0".toList ]
    realpath := fun _ => "/sys/devices/pci0000:00/0000:00:01.0/0000:01:00.0".toList
    linkFields := fun _ => ( "16.0".toList, "16".toList, "8.0".toList, "16".toList)
    shortName := fun _ => "NVIDIA GPU".toList
    dmi_desig := [] }

/-- A concrete environment: one GPU whose resolved path holds no address at
all, and one with a complete chain and a catalog entry. -/
def envW6 : GpuEnv :=
  { gpus := [ "02:00.0".toList, "01:00.0".toList ]
    realpath := fun g =>
      if g = "02:00.0".toList then "/sys/devices/platform/x".toList
      else "/sys/devices/pci0000:00/0000:00:01.0/0000:01:00.0".toList
    linkFields := fun _ => ( "16.0".toList, "16".toList, "16.0".toList, "16".toList)
    shortName := fun _ => "NVIDIA GPU".toList
    dmi_desig := [( "0000:01:00.0".toList, "PCIE_1_SLOT1".toList)] }

/-- C4 witness: the theorem applied to the concrete environment. -/
theorem claim_C4_witness :
    ∃ rows dg, runChecks envW8 envW8.gpus = some (rows, dg) ∧
      ((dg = []) ↔ ∀ r ∈ rows, r.status ≠ "DOWNGRADED".toList) ∧
      ∀ r ∈ rows, r.status = "OK".toList ∨ r.status = "IDLE".toList ∨
        r.status = "DOWNGRADED".toList :=
  claim_C4 envW8

/-- C6 witness: the theorem applied to the concrete environment at its
chainless GPU. -/
theorem claim_C6_witness :
    (findallBdf (envW6.realpath ( "02:00.0".toList))).length < 2 ∧
    (processGpu envW6 ( "02:00.0".toList) = some GpuStep.incomplete ∧
      ∃ rows dg, runChecks envW6 envW6.gpus = some (rows, dg) ∧
        rows.map GpuRow.bdf =
          envW6.gpus.filter
            (fun x => ! decide ((findallBdf (envW6.realpath x)).length < 2)) ∧
        dg = (rows.filter (fun r => r.status = "DOWNGRADED".toList)).map GpuRow.bdf) :=
  ⟨by decide, claim_C6 envW6 ( "02:00.0".toList) (by decide)⟩

/-- C8 witness: the theorem applied to the concrete environment with the
empty catalog. -/
theorem claim_C8_witness :
    (¬ (findallBdf (envW8.realpath ( "01:00.0".toList))).length < 2) ∧
    List.lookup (dmi_key_from_bdf ((findallBdf (envW8.realpath ( "01:00.0".toList))).getD 0 []))
      envW8.dmi_desig = none ∧
    ∃ r, processGpu envW8 ( "01:00.0".toList) = some (GpuStep.row r) ∧
      r.bdf = "01:00.0".toList ∧
      r.status = link_status_tag (envW8.linkFields ( "01:00.0".toList)).1
        (envW8.linkFields ( "01:00.0".toList)).2.1
        (envW8.linkFields ( "01:00.0".toList)).2.2.1
        (envW8.linkFields ( "01:00.0".toList)).2.2.2 ∧
      r.slot_name = "ERROR (_PCIE_2)".toList ∧
      r.location = "ERROR-ERROR-ERROR".toList :=
  ⟨by decide, by decide, claim_C8 envW8 ( "01:00.0".toList) (by decide) (by decide)⟩

/-- C3 witness: the classifier iff at a concrete quadruple — full width on
both sides, negotiated speed below capability. -/
theorem claim_C3_witness :
    link_status_tag ( "16.0".toList) ( "16".toList) ( "8.0".toList) ( "16".toList) =
        "IDLE".toList ↔
      (¬ ∃ c s : Int, pyInt ( "16".toList) = some c ∧ pyInt ( "16".toList) = some s ∧ s < c) ∧
      ∃ c s : ℚ, pyFloat ( "16.0".toList) = some c ∧ pyFloat ( "8.0".toList) = some s ∧ s < c :=
  (claim_C3 ( "16.0".toList) ( "16".toList) ( "8.0".toList) ( "16".toList)).2.1

/-- C9 witness: the amended equivalence at a concrete malformed text. -/
theorem claim_C9_witness :
    dmi_key_from_bdf ( "junk".toList) = [] ↔ bdfGroups ( "junk".toList) = none :=
  (claim_C9_amended ( "junk".toList)).1

/-- C10 witness: totality at a concrete unparseable quadruple. -/
theorem claim_C10_witness :
    link_status_tag ( "x".toList) ( "..".toList) [] ( "1e".toList) = "OK".toList ∨
    link_status_tag ( "x".toList) ( "..".toList) [] ( "1e".toList) = "IDLE".toList ∨
    link_status_tag ( "x".toList) ( "..".toList) [] ( "1e".toList) = "DOWNGRADED".toList :=
  claim_C10 ( "x".toList) ( "..".toList) [] ( "1e".toList)
